import Mathlib

/-!
Verification development for the game-session engine of the liars-dice
repository.  The definitions below are a shallow embedding of the socket
event handlers in src/pages/api/socket.ts: JavaScript numbers are modelled
as Int (probabilities as Rat), Math.random based dice rolls are modelled by
explicit entropy streams passed as arguments, and the in-place mutations of
the handlers are modelled as functions from a game state to a new game
state together with the list of emitted socket events.
-/

namespace LiarsDice

/-- One die value drawn from an entropy stream: an arbitrary natural number
is reduced to the range 1..6, mirroring Math.floor(Math.random() * 6) + 1. -/
def dieOf (n : Nat) : Int := Int.ofNat (n % 6) + 1

/-- rollDice from the source: produce count dice, each in 1..6, reading
independent entropy from the stream row. -/
def rollDice (row : Nat → Nat) (count : Nat) : List Int :=
  (List.range count).map (fun i => dieOf (row i))

/-- The Player record of the source (interface Player). -/
structure Player where
  id : String
  name : String
  dice : List Int
  diceCount : Int
  isCurrentTurn : Bool
  socketId : String
deriving DecidableEq

/-- The Bid record of the source (interface Bid). -/
structure Bid where
  count : Int
  value : Int
  playerId : String
deriving DecidableEq

/-- The Game record of the source (interface Game). -/
structure Game where
  id : String
  players : List Player
  currentBid : Option Bid
  gameStarted : Bool
  gameOver : Bool
  winner : Option Player
  showDice : Bool
deriving DecidableEq

/-- The socket events emitted by the handlers, with the payload fields the
game logic determines (display strings are omitted except error messages,
which the spec treats as the named error events). -/
inductive Event where
  | errorEv (message : String)
  | gameCreated (gameId playerId : String)
  | gameJoined (gameId playerId : String)
  | playerJoined (playerId : String)
  | gameStartedEv
  | bidMade (bid : Bid) (nextPlayerId : String)
  | bluffCalled (bluffCaller loserId : String) (totalDiceWithValue bidValue : Int)
  | gameOverEv (winnerId : String)
  | newRound
  | computerAdded
  | playerLeft (playerId : String)
deriving DecidableEq

/-- Result of a handler: the updated game plus the emitted events. -/
structure Emitted where
  game : Game
  events : List Event
deriving DecidableEq

/-- Result of a bluff resolution: besides the updated game and events it
records the challenger id of a scheduled new-round timeout, if any. -/
structure BluffResult where
  game : Game
  events : List Event
  sched : Option String
deriving DecidableEq

/-- The createGame handler: a fresh game with a single player holding five
dice and the turn flag.  The random id generation of the source is modelled
by taking the generated ids as arguments. -/
def createGame (gameId playerId playerName socketId : String) (row : Nat → Nat) : Game :=
  { id := gameId
    players := [{ id := playerId, name := playerName, dice := rollDice row 5,
                  diceCount := 5, isCurrentTurn := true, socketId := socketId }]
    currentBid := none
    gameStarted := false
    gameOver := false
    winner := none
    showDice := false }

/-- The joinGame handler. -/
def joinGame (g : Game) (playerId playerName socketId : String) (row : Nat → Nat) :
    Emitted :=
  if g.gameStarted then ⟨g, [.errorEv "Game already started"]⟩
  else if 2 ≤ g.players.length then ⟨g, [.errorEv "Game is full"]⟩
  else
    let p : Player :=
      { id := playerId, name := playerName, dice := rollDice row 5,
        diceCount := 5, isCurrentTurn := false, socketId := socketId }
    ⟨{ g with players := g.players ++ [p] },
     [.gameJoined g.id playerId, .playerJoined playerId]⟩

/-- The startGame handler.  Note that the source checks only the player
count, not whether the game already started. -/
def startGame (g : Game) : Emitted :=
  if g.players.length < 2 then ⟨g, [.errorEv "Need at least 2 players to start"]⟩
  else
    let players := g.players.modifyHead (fun p => { p with isCurrentTurn := true })
    ⟨{ g with gameStarted := true, players := players }, [.gameStartedEv]⟩

/-- The success path of makeBid (and of the computer bids): store the bid
and advance the turn to the next index modulo the player count. -/
def makeBidApply (g : Game) (playerId : String) (count value : Int) : Emitted :=
  let newBid : Bid := { count := count, value := value, playerId := playerId }
  let currentPlayerIndex := g.players.findIdx (fun p => p.id == playerId)
  let nextPlayerIndex := (currentPlayerIndex + 1) % g.players.length
  let players := g.players.mapIdx (fun i p => { p with isCurrentTurn := i == nextPlayerIndex })
  let g1 := { g with currentBid := some newBid, players := players }
  match players[nextPlayerIndex]? with
  | some np => ⟨g1, [.bidMade newBid np.id]⟩
  | none => ⟨g1, []⟩

/-- The makeBid handler: look up the player, check the turn flag, validate
the bid against the current bid, then apply it. -/
def makeBid (g : Game) (playerId : String) (count value : Int) : Emitted :=
  match g.players.find? (fun p => p.id == playerId) with
  | none => ⟨g, [.errorEv "Player not found"]⟩
  | some player =>
    if !player.isCurrentTurn then ⟨g, [.errorEv "Not your turn"]⟩
    else
      match g.currentBid with
      | some cb =>
        if count < cb.count ∨ (count = cb.count ∧ value ≤ cb.value) then
          ⟨g, [.errorEv "Invalid bid! You must bid a higher count or same count with higher value."]⟩
        else makeBidApply g playerId count value
      | none => makeBidApply g playerId count value

/-- The reduce over all players counting dice equal to the bid value. -/
def countMatching (players : List Player) (v : Int) : Int :=
  players.foldl (fun count p => count + Int.ofNat (p.dice.filter (fun d => d == v)).length) 0

/-- The shared bluff-resolution block (it appears verbatim in both the
callBluff handler and the computer move): pick the loser, take one die from
the loser and re-roll, re-roll every other player with dice left, then
either finish the game or schedule a new round for the challenger. -/
def resolveBluffCore (g : Game) (cb : Bid) (challenger bidder : Player)
    (rows : Nat → Nat → Nat) : BluffResult :=
  let total := countMatching g.players cb.value
  let loser := if cb.count ≤ total then challenger else bidder
  let newCount := loser.diceCount - 1
  let newDice := if 0 < newCount then rollDice (rows 0) newCount.toNat else []
  let loserIdx := g.players.findIdx (fun p => p.id == loser.id)
  let players1 :=
    match g.players[loserIdx]? with
    | some q => g.players.set loserIdx { q with diceCount := newCount, dice := newDice }
    | none => g.players
  let players2 := players1.mapIdx (fun i p =>
    if p.id ≠ loser.id ∧ 0 < p.diceCount then
      { p with dice := rollDice (rows (i + 1)) p.diceCount.toNat }
    else p)
  let g2 := { g with players := players2 }
  let resolvedEv := Event.bluffCalled challenger.id loser.id total cb.value
  if players2.any (fun p => p.diceCount == 0) then
    match players2.find? (fun p => decide (0 < p.diceCount)) with
    | some w =>
      ⟨{ g2 with winner := some w, gameOver := true }, [resolvedEv, .gameOverEv w.id], none⟩
    | none => ⟨g2, [resolvedEv], none⟩
  else
    ⟨g2, [resolvedEv], some challenger.id⟩

/-- The player list produced by a bluff resolution whose loser is lsr: the
entry at the loser index loses one die and is re-rolled (or emptied), and
every other player with dice left is re-rolled.  Proven equal to the
players of resolveBluffCore below. -/
def afterBluffPlayers (G : Game) (lsr : Player) (rows : Nat → Nat → Nat) : List Player :=
  (G.players.set (G.players.findIdx (fun p => p.id == lsr.id)) { lsr with diceCount := lsr.diceCount - 1, dice := if 0 < lsr.diceCount - 1 then rollDice (rows 0) (lsr.diceCount - 1).toNat else [] }).mapIdx (fun i p => if p.id ≠ lsr.id ∧ 0 < p.diceCount then { p with dice := rollDice (rows (i + 1)) p.diceCount.toNat } else p)

/-- The callBluff handler.  Note the source sets showDice before looking up
the bidder, so the bidder-lookup failure leaves showDice mutated. -/
def callBluff (g : Game) (playerId : String) (rows : Nat → Nat → Nat) : BluffResult :=
  match g.currentBid with
  | none => ⟨g, [.errorEv "No bid to call bluff on"], none⟩
  | some cb =>
    match g.players.find? (fun p => p.id == playerId) with
    | none => ⟨g, [.errorEv "Player not found"], none⟩
    | some player =>
      if !player.isCurrentTurn then ⟨g, [.errorEv "Not your turn"], none⟩
      else
        let g1 := { g with showDice := true }
        match g1.players.find? (fun p => p.id == cb.playerId),
              g1.players.find? (fun p => p.id == playerId) with
        | some bidder, some challenger => resolveBluffCore g1 cb challenger bidder rows
        | _, _ => ⟨g1, [.errorEv "Player not found"], none⟩

/-- The addComputer handler.  The source checks only the player count. -/
def addComputer (g : Game) (computerId : String) (row : Nat → Nat) : Emitted :=
  if 2 ≤ g.players.length then ⟨g, [.errorEv "Game is full"]⟩
  else
    let p : Player :=
      { id := computerId, name := "Computer", dice := rollDice row 5,
        diceCount := 5, isCurrentTurn := false, socketId := "computer" }
    ⟨{ g with players := g.players ++ [p] }, [.computerAdded]⟩

/-- The disconnect handler restricted to one game: splice out the player
with the matching socket, touching nothing else. -/
def disconnectGame (g : Game) (socketId : String) : Emitted :=
  match g.players.findIdx? (fun p => p.socketId == socketId) with
  | none => ⟨g, []⟩
  | some i =>
    let pid := match g.players[i]? with
      | some p => p.id
      | none => ""
    ⟨{ g with players := g.players.eraseIdx i }, [.playerLeft pid]⟩

/-- The body of the new-round setTimeout in callBluff: clear showDice and
the bid and hand the turn to every player whose id is the challenger id. -/
def newRoundUpdate (g : Game) (challengerId : String) : Game :=
  let players := g.players.map (fun p => { p with isCurrentTurn := p.id == challengerId })
  { g with showDice := false, currentBid := none, players := players }

/-- The probability loop of computerMove: starting from 1.0, multiply by
probPerDie * opponentDiceCount / (i + 1) for i below the iteration count. -/
def probLoop (opponentDiceCount : ℚ) : Nat → ℚ
  | 0 => 1
  | n + 1 => probLoop opponentDiceCount n * (1 / 6 * opponentDiceCount / (n + 1))

/-- Math.max over rationals, written out so that it evaluates. -/
def ratMax (a b : Rat) : Rat := if a ≤ b then b else a

/-- Math.min over rationals, written out so that it evaluates. -/
def ratMin (a b : Rat) : Rat := if a ≤ b then a else b

/-- The probability estimate of computerMove (source lines 473 to 501),
over exact rationals in place of floating point. -/
def computeProbability (computerDice : List Int) (cb : Bid) (opponentDiceCount : Int) : ℚ :=
  let computerValueCount : Int := Int.ofNat (computerDice.filter (fun d => d == cb.value)).length
  let neededFromOpponent : Int := cb.count - computerValueCount
  if neededFromOpponent ≤ 0 then 1
  else if opponentDiceCount < neededFromOpponent then 0
  else ratMin 1 (ratMax 0 (probLoop (opponentDiceCount : ℚ) neededFromOpponent.toNat))

/-- The bluff decision of computerMove: call the bluff when the estimated
probability is below the threshold 0.3. -/
def aiCallsBluff (computerDice : List Int) (cb : Bid) (opponentDiceCount : Int) : Bool :=
  decide (computeProbability computerDice cb opponentDiceCount < 3 / 10)

/-- The frequency scan of computerMove: maxCount and maxValue of the hand,
scanning values 1..6 and keeping the first strict improvement. -/
def maxFreq (dice : List Int) : Int × Int :=
  (List.range 6).foldl
    (fun acc i =>
      let v : Int := Int.ofNat i + 1
      let c : Int := Int.ofNat (dice.filter (fun d => d == v)).length
      if acc.1 < c then (c, v) else acc)
    (0, 1)

/-- The bid-selection logic of computerMove, including the final safety
clamp to a minimal legal increment. -/
def aiSelectBid (cb : Bid) (maxCount maxValue : Int) (coinLtHalf : Bool) (rvalue2 : Nat) :
    Int × Int :=
  let pick :=
    if 2 ≤ maxCount then
      if cb.value < maxValue then (cb.count, maxValue)
      else if maxValue < cb.value then (cb.count + 1, maxValue)
      else (cb.count + 1, cb.value)
    else
      if coinLtHalf ∧ cb.value < 6 then (cb.count, cb.value + 1)
      else (cb.count + 1, dieOf rvalue2)
  if pick.1 < cb.count ∨ (pick.1 = cb.count ∧ pick.2 ≤ cb.value) then
    if 6 < cb.value + 1 then (cb.count + 1, 1) else (cb.count, cb.value + 1)
  else pick

/-- The entropy consumed by one computer move: the opening-bid randoms, the
coin for the 0.5 branch, the random replacement value, and roll streams. -/
structure AiRand where
  rcount : Nat
  rvalue : Nat
  coinLtHalf : Bool
  rvalue2 : Nat
  rows : Nat → Nat → Nat

/-- The computerMove function of the source. -/
def computerMove (g : Game) (r : AiRand) : BluffResult :=
  match g.currentBid with
  | none =>
    match g.players.find? (fun p => p.name == "Computer") with
    | none => ⟨g, [], none⟩
    | some cp =>
      if !cp.isCurrentTurn then ⟨g, [], none⟩
      else
        let e := makeBidApply g cp.id (Int.ofNat (r.rcount % 3) + 1) (dieOf r.rvalue)
        ⟨e.game, e.events, none⟩
  | some cb =>
    match g.players.find? (fun p => p.name == "Computer") with
    | none => ⟨g, [], none⟩
    | some cp =>
      if !cp.isCurrentTurn then ⟨g, [], none⟩
      else
        let opponentDiceCount : Int :=
          g.players.foldl (fun c p => if p.name ≠ "Computer" then c + p.diceCount else c) 0
        if aiCallsBluff cp.dice cb opponentDiceCount then
          let g1 := { g with showDice := true }
          match g1.players.find? (fun p => p.id == cb.playerId) with
          | none => ⟨g1, [], none⟩
          | some bidder => resolveBluffCore g1 cb cp bidder r.rows
        else
          let mm := maxFreq cp.dice
          let nv := aiSelectBid cb mm.1 mm.2 r.coinLtHalf r.rvalue2
          let e := makeBidApply g cp.id nv.1 nv.2
          ⟨e.game, e.events, none⟩

/-- A session together with the challenger ids of the pending new-round
setTimeout continuations, in scheduling order. -/
structure SessionState where
  game : Game
  pending : List String
deriving DecidableEq

/-- One callBluff command at the session level: apply the handler and
append the scheduled new-round timeout, if any. -/
def stepBluff (s : SessionState) (playerId : String) (rows : Nat → Nat → Nat) :
    SessionState :=
  let r := callBluff s.game playerId rows
  ⟨r.game, s.pending ++ r.sched.toList⟩

/-- One computer move at the session level. -/
def stepAi (s : SessionState) (r : AiRand) : SessionState :=
  let o := computerMove s.game r
  ⟨o.game, s.pending ++ o.sched.toList⟩

/-- The transition relation of one session: the socket commands of the
source plus the firing of a pending new-round timeout. -/
inductive Step : SessionState → SessionState → Prop
  | join (s : SessionState) (pid pname sock : String) (row : Nat → Nat) :
      Step s ⟨(joinGame s.game pid pname sock row).game, s.pending⟩
  | addC (s : SessionState) (cid : String) (row : Nat → Nat) :
      Step s ⟨(addComputer s.game cid row).game, s.pending⟩
  | start (s : SessionState) :
      Step s ⟨(startGame s.game).game, s.pending⟩
  | bid (s : SessionState) (pid : String) (c v : Int) :
      Step s ⟨(makeBid s.game pid c v).game, s.pending⟩
  | bluff (s : SessionState) (pid : String) (rows : Nat → Nat → Nat) :
      Step s (stepBluff s pid rows)
  | fire (g : Game) (c : String) (rest : List String) :
      Step ⟨g, c :: rest⟩ ⟨newRoundUpdate g c, rest⟩
  | leave (s : SessionState) (sock : String) :
      Step s ⟨(disconnectGame s.game sock).game, s.pending⟩
  | ai (s : SessionState) (r : AiRand) :
      Step s (stepAi s r)

/-- Session states reachable from game creation. -/
inductive Reachable : SessionState → Prop
  | init (gameId playerId playerName socketId : String) (row : Nat → Nat) :
      Reachable ⟨createGame gameId playerId playerName socketId row, []⟩
  | step {s t : SessionState} (hs : Reachable s) (st : Step s t) : Reachable t

/-- The strictly-higher relation on candidate bids exactly as the claims
state it: a null reference passes unconditionally, otherwise the candidate
needs a larger count or an equal count with a larger value. -/
def BidHigher (reference : Option Bid) (count value : Int) : Prop :=
  ∀ cb, reference = some cb → (cb.count < count ∨ (count = cb.count ∧ cb.value < value))

/-- The total of dice matching the bid value during a bluff resolution. -/
def bluffTotal (g : Game) (cb : Bid) : Int := countMatching g.players cb.value

/-- The loser selected by a bluff resolution: the challenger when the bid
was covered, the bidder otherwise. -/
def bluffLoser (g : Game) (cb : Bid) (challenger bidder : Player) : Player :=
  if cb.count ≤ bluffTotal g cb then challenger else bidder

/-- Modelled from the claim wording of the AI probability estimate: the
product over i below needed of (1 over 6) * (opponentDiceTotal - i) / (i + 1),
clamped to the unit interval, with the same endpoint cases as the source.
This definition follows the specification text, not the source, and exists
only to be compared against computeProbability. -/
def claimedProbability (hand : List Int) (cb : Bid) (opponentDiceTotal : Int) : ℚ :=
  let haveCount : Int := Int.ofNat (hand.filter (fun d => d == cb.value)).length
  let needed : Int := cb.count - haveCount
  if needed ≤ 0 then 1
  else if opponentDiceTotal < needed then 0
  else
    ratMin 1 (ratMax 0 (((List.range needed.toNat).map
      (fun (i : Nat) => 1 / 6 * ((opponentDiceTotal : ℚ) - (i : ℚ)) / ((i : ℚ) + 1))).prod))

/-- Dice-count monotonicity across one transition: every player of the new
state either corresponds by id to a player of the old state whose dice count
it keeps or lowers by exactly one, or is a freshly added player with five
dice. -/
def DiceMono (old new : List Player) : Prop :=
  ∀ p ∈ new,
    (∃ q ∈ old, q.id = p.id ∧ (p.diceCount = q.diceCount ∨ p.diceCount = q.diceCount - 1)) ∨
    p.diceCount = 5

/-- An all-ones entropy stream for the concrete executions below. -/
def zeroRow : Nat → Nat := fun _ => 0

/-- An all-ones entropy table for the concrete executions below. -/
def zeroRows : Nat → Nat → Nat := fun _ _ => 0

/-- Concrete session: just created by player p1. -/
def g0 : SessionState := ⟨createGame "g1" "p1" "Alice" "s1" zeroRow, []⟩

/-- Concrete session: p2 joined. -/
def g1 : SessionState := ⟨(joinGame g0.game "p2" "Bob" "s2" zeroRow).game, g0.pending⟩

/-- Concrete session: started with both players. -/
def g2 : SessionState := ⟨(startGame g1.game).game, g1.pending⟩

/-- Concrete session: p1 bid six sixes, so the turn moved to p2. -/
def g3 : SessionState := ⟨(makeBid g2.game "p1" 6 6).game, g2.pending⟩

/-- Concrete session: the bidder p1 disconnected right after bidding. -/
def g4 : SessionState := ⟨(disconnectGame g3.game "s1").game, g3.pending⟩

/-- Concrete session: the turn holder p1 disconnected before any bid. -/
def g5 : SessionState := ⟨(disconnectGame g2.game "s1").game, g2.pending⟩

/-- Concrete session: first of six consecutive bluff calls by p2 against
the impossible bid of six sixes (all hands are ones). -/
def h1 : SessionState := stepBluff g3 "p2" zeroRows

/-- Concrete session: second bluff call, without waiting for the timer. -/
def h2 : SessionState := stepBluff h1 "p2" zeroRows

/-- Concrete session: third bluff call. -/
def h3 : SessionState := stepBluff h2 "p2" zeroRows

/-- Concrete session: fourth bluff call. -/
def h4 : SessionState := stepBluff h3 "p2" zeroRows

/-- Concrete session: fifth bluff call; p1 reaches zero dice and the game
is over. -/
def h5 : SessionState := stepBluff h4 "p2" zeroRows

/-- Concrete session: sixth bluff call, accepted although the game is over;
p1 drops to minus one die. -/
def h6 : SessionState := stepBluff h5 "p2" zeroRows

/-- Concrete session: p1 made a bid while still in the lobby. -/
def k2 : SessionState := ⟨(makeBid g1.game "p1" 2 2).game, g1.pending⟩

/-- Concrete session: started after the lobby bid; the turn flag of p2 from
the lobby bid survives and p1 gets a second turn flag. -/
def k3 : SessionState := ⟨(startGame k2.game).game, k2.pending⟩

/-- A concrete mid-game session for the bluff-resolution witness: the bid
of two threes by p1 stands, p2 holds the turn, and all five dice of p1 are
threes. -/
def c2g : Game :=
  { id := "g9"
    players := [⟨"p1", "Alice", [3, 3, 3, 3, 3], 5, false, "s1"⟩,
                ⟨"p2", "Bob", [1, 1, 1, 1, 1], 5, true, "s2"⟩]
    currentBid := some ⟨2, 3, "p1"⟩
    gameStarted := true
    gameOver := false
    winner := none
    showDice := false }

/-- The created session is reachable. -/
theorem reach_g0 : Reachable g0 := Reachable.init "g1" "p1" "Alice" "s1" zeroRow

/-- The joined session is reachable. -/
theorem reach_g1 : Reachable g1 := reach_g0.step (Step.join g0 "p2" "Bob" "s2" zeroRow)

/-- The started session is reachable. -/
theorem reach_g2 : Reachable g2 := reach_g1.step (Step.start g1)

/-- The session with the six-sixes bid is reachable. -/
theorem reach_g3 : Reachable g3 := reach_g2.step (Step.bid g2 "p1" 6 6)

/-- The session whose bidder disconnected is reachable. -/
theorem reach_g4 : Reachable g4 := reach_g3.step (Step.leave g3 "s1")

/-- The session whose turn holder disconnected is reachable. -/
theorem reach_g5 : Reachable g5 := reach_g2.step (Step.leave g2 "s1")

/-- The bluff-call chain is reachable, step one. -/
theorem reach_h1 : Reachable h1 := reach_g3.step (Step.bluff g3 "p2" zeroRows)

/-- The bluff-call chain is reachable, step two. -/
theorem reach_h2 : Reachable h2 := reach_h1.step (Step.bluff h1 "p2" zeroRows)

/-- The bluff-call chain is reachable, step three. -/
theorem reach_h3 : Reachable h3 := reach_h2.step (Step.bluff h2 "p2" zeroRows)

/-- The bluff-call chain is reachable, step four. -/
theorem reach_h4 : Reachable h4 := reach_h3.step (Step.bluff h3 "p2" zeroRows)

/-- The bluff-call chain is reachable, step five. -/
theorem reach_h5 : Reachable h5 := reach_h4.step (Step.bluff h4 "p2" zeroRows)

/-- The bluff-call chain is reachable, step six. -/
theorem reach_h6 : Reachable h6 := reach_h5.step (Step.bluff h5 "p2" zeroRows)

/-- The lobby-bid session is reachable. -/
theorem reach_k2 : Reachable k2 := reach_g1.step (Step.bid g1 "p1" 2 2)

/-- The doubly-flagged started session is reachable. -/
theorem reach_k3 : Reachable k3 := reach_k2.step (Step.start k2)

/-- Claim C1 is false on the code: in the lobby state (gameStarted false)
the creator still holds the turn flag, so a makeBid from the creator is
accepted, emits a bid event rather than an error, and mutates the session.
The makeBid and callBluff handlers never consult gameStarted or gameOver. -/
theorem C1_cex :
    g0.game.gameStarted = false ∧
    (makeBid g0.game "p1" 2 3).events = [.bidMade ⟨2, 3, "p1"⟩ "p1"] ∧
    (makeBid g0.game "p1" 2 3).game.currentBid = some ⟨2, 3, "p1"⟩ ∧
    g0.game.currentBid = none := by decide

/-- Claim C1 (amended): makeBid and callBluff consult only the session
lookup, the bid presence (callBluff), the participant lookup and the turn
flag, never gameStarted or gameOver; hence any makeBid or callBluff whose
participant is missing or lacks the turn is rejected with an error event
and leaves the session unchanged, in the Lobby and Finished states as in
any other, while a participant holding the turn flag can still act there. -/
theorem C1_reject_without_turn (g : Game) (pid : String) (c v : Int)
    (rows : Nat → Nat → Nat)
    (h : ∀ p, g.players.find? (fun q => q.id == pid) = some p → p.isCurrentTurn = false) :
    (∃ m, makeBid g pid c v = ⟨g, [.errorEv m]⟩) ∧
    (∃ m, callBluff g pid rows = ⟨g, [.errorEv m], none⟩) := by
  constructor
  · unfold makeBid
    cases hf : g.players.find? (fun q => q.id == pid) with
    | none => exact ⟨"Player not found", rfl⟩
    | some p =>
      refine ⟨"Not your turn", ?_⟩
      simp [h p hf]
  · unfold callBluff
    cases hb : g.currentBid with
    | none => exact ⟨"No bid to call bluff on", rfl⟩
    | some cb =>
      cases hf : g.players.find? (fun q => q.id == pid) with
      | none => exact ⟨"Player not found", rfl⟩
      | some p =>
        refine ⟨"Not your turn", ?_⟩
        simp [h p hf]

/-- Witness for C1: in the concrete joined session, p2 does not hold the
turn, and both commands from p2 are rejected without mutation. -/
theorem C1_reject_without_turn_witness :
    (∃ m, makeBid g1.game "p2" 3 3 = ⟨g1.game, [.errorEv m]⟩) ∧
    (∃ m, callBluff g1.game "p2" zeroRows = ⟨g1.game, [.errorEv m], none⟩) :=
  C1_reject_without_turn g1.game "p2" 3 3 zeroRows
    (by intro p hp; injection hp with h2; subst h2; rfl)

/-- A successful bid application stores exactly the submitted bid. -/
theorem makeBidApply_currentBid (g : Game) (pid : String) (c v : Int) :
    (makeBidApply g pid c v).game.currentBid = some ⟨c, v, pid⟩ := by
  unfold makeBidApply
  dsimp only
  split <;> rfl

/-- A successful bid application rewrites the turn flags by index. -/
theorem makeBidApply_players (g : Game) (pid : String) (c v : Int) :
    (makeBidApply g pid c v).game.players =
      g.players.mapIdx (fun i p => { p with isCurrentTurn :=
        i == (g.players.findIdx (fun q => q.id == pid) + 1) % g.players.length }) := by
  unfold makeBidApply
  dsimp only
  split <;> rfl

/-- A successful bid application emits exactly one bid event. -/
theorem makeBidApply_events (g : Game) (pid : String) (c v : Int)
    (hne : g.players ≠ []) :
    ∃ nid, (makeBidApply g pid c v).events = [.bidMade ⟨c, v, pid⟩ nid] := by
  unfold makeBidApply
  dsimp only
  split
  next np heq => exact ⟨np.id, rfl⟩
  next heq =>
    exfalso
    have hlen : (g.players.findIdx (fun q => q.id == pid) + 1) % g.players.length
        < g.players.length :=
      Nat.mod_lt _ (List.length_pos.mpr hne)
    rw [List.getElem?_eq_none_iff] at heq
    rw [List.length_mapIdx] at heq
    omega

/-- When the bidder holds the turn and the candidate is higher, makeBid
takes the success path. -/
theorem makeBid_accepted (g : Game) (pid : String) (c v : Int) (p : Player)
    (hf : g.players.find? (fun q => q.id == pid) = some p)
    (ht : p.isCurrentTurn = true)
    (hh : BidHigher g.currentBid c v) :
    makeBid g pid c v = makeBidApply g pid c v := by
  unfold makeBid
  rw [hf]
  simp only [ht, Bool.not_true, Bool.false_eq_true, if_false]
  cases hb : g.currentBid with
  | none => rfl
  | some cb =>
    have hg := hh cb hb
    have hcond : ¬(c < cb.count ∨ (c = cb.count ∧ v ≤ cb.value)) := by omega
    simp only [hcond, if_false]

/-- When the bidder holds the turn but the candidate is not higher, makeBid
rejects with the invalid-bid error and changes nothing. -/
theorem makeBid_rejected (g : Game) (pid : String) (c v : Int) (p : Player)
    (hf : g.players.find? (fun q => q.id == pid) = some p)
    (ht : p.isCurrentTurn = true)
    (hh : ¬BidHigher g.currentBid c v) :
    makeBid g pid c v =
      ⟨g, [.errorEv "Invalid bid! You must bid a higher count or same count with higher value."]⟩ := by
  unfold makeBid
  rw [hf]
  simp only [ht, Bool.not_true, Bool.false_eq_true, if_false]
  cases hb : g.currentBid with
  | none =>
    exact absurd (fun cb h => by rw [hb] at h; cases h) hh
  | some cb =>
    have hcond : c < cb.count ∨ (c = cb.count ∧ v ≤ cb.value) := by
      by_contra hc
      refine hh (fun cb' h' => ?_)
      rw [hb] at h'
      injection h' with e
      subst e
      omega
    simp only [hcond, if_true]

/-- Claim C3: with the turn held, a candidate bid is accepted exactly when
the reference bid is null or the candidate is higher by count, or by value
at equal count; a failing candidate is rejected with the invalid-bid error
and the session, in particular currentBid, is unchanged. -/
theorem C3_bid_ordering (g : Game) (pid : String) (c v : Int) (p : Player)
    (hf : g.players.find? (fun q => q.id == pid) = some p)
    (ht : p.isCurrentTurn = true) :
    (BidHigher g.currentBid c v →
      (makeBid g pid c v).game.currentBid = some ⟨c, v, pid⟩ ∧
      ∃ nid, (makeBid g pid c v).events = [.bidMade ⟨c, v, pid⟩ nid]) ∧
    (¬BidHigher g.currentBid c v →
      makeBid g pid c v =
        ⟨g, [.errorEv "Invalid bid! You must bid a higher count or same count with higher value."]⟩) := by
  constructor
  · intro hh
    rw [makeBid_accepted g pid c v p hf ht hh]
    exact ⟨makeBidApply_currentBid g pid c v,
      makeBidApply_events g pid c v (List.ne_nil_of_mem (List.mem_of_find?_eq_some hf))⟩
  · intro hh
    exact makeBid_rejected g pid c v p hf ht hh

/-- Witness for C3: in the concrete started session the opening bid of two
threes is accepted and stored. -/
theorem C3_bid_ordering_witness :
    (makeBid g2.game "p1" 2 3).game.currentBid = some ⟨2, 3, "p1"⟩ :=
  (C3_bid_ordering g2.game "p1" 2 3 ⟨"p1", "Alice", [1, 1, 1, 1, 1], 5, true, "s1"⟩
      (by decide) (by decide)).1
    (by intro cb h; rw [(by decide : g2.game.currentBid = (none : Option Bid))] at h; cases h)
    |>.1

/-- Claim C7 is false on the code: the reachable started session accepts
the bid of zero sevens, whose count is below one and whose value is outside
one to six; it is stored as the current bid and no error is emitted. -/
theorem C7_cex :
    Reachable g2 ∧ g2.game.gameStarted = true ∧ g2.game.currentBid = none ∧
    (makeBid g2.game "p1" 0 7).events = [.bidMade ⟨0, 7, "p1"⟩ "p2"] ∧
    (makeBid g2.game "p1" 0 7).game.currentBid = some ⟨0, 7, "p1"⟩ :=
  ⟨reach_g2, by decide⟩

/-- Claim C7 (amended): makeBid performs no range validation at all; the
ordering test against the current bid is the only check on the submitted
numbers, so any count and value, however far outside the declared ranges,
are accepted and stored whenever the ordering test passes. -/
theorem C7_no_range_validation (g : Game) (pid : String) (c v : Int) (p : Player)
    (hf : g.players.find? (fun q => q.id == pid) = some p)
    (ht : p.isCurrentTurn = true)
    (hh : BidHigher g.currentBid c v) :
    (makeBid g pid c v).game.currentBid = some ⟨c, v, pid⟩ ∧
    ∃ nid, (makeBid g pid c v).events = [.bidMade ⟨c, v, pid⟩ nid] := by
  rw [makeBid_accepted g pid c v p hf ht hh]
  exact ⟨makeBidApply_currentBid g pid c v,
    makeBidApply_events g pid c v (List.ne_nil_of_mem (List.mem_of_find?_eq_some hf))⟩

/-- Witness for C7: the out-of-range bid of zero sevens is accepted in the
concrete started session. -/
theorem C7_no_range_validation_witness :
    (makeBid g2.game "p1" 0 7).game.currentBid = some ⟨0, 7, "p1"⟩ :=
  (C7_no_range_validation g2.game "p1" 0 7 ⟨"p1", "Alice", [1, 1, 1, 1, 1], 5, true, "s1"⟩
      (by decide) (by decide)
      (by intro cb h; rw [(by decide : g2.game.currentBid = (none : Option Bid))] at h;
          cases h)).1

/-- Claim C8 is false on the code: startGame never checks gameStarted, so
re-issuing it on the reachable started session (where the turn has moved to
p2) emits the started event, not an error, and mutates the state by handing
a second turn flag to the first player. -/
theorem C8_cex :
    Reachable g3 ∧ g3.game.gameStarted = true ∧
    (startGame g3.game).events = [.gameStartedEv] ∧
    (startGame g3.game).game ≠ g3.game ∧
    (startGame g3.game).game.players.countP (fun p => p.isCurrentTurn) = 2 :=
  ⟨reach_g3, by decide⟩

/-- Claim C8 (amended): startGame requires only a player count of at least
two; whether the session already started is never checked, so the command
always succeeds on two players, re-setting gameStarted and granting the
first participant the turn flag without clearing any other flag, and it is
rejected exactly when fewer than two players are present. -/
theorem C8_start_checks_only_count (g : Game) :
    (2 ≤ g.players.length →
      (startGame g).events = [.gameStartedEv] ∧
      (startGame g).game.gameStarted = true ∧
      (startGame g).game.currentBid = g.currentBid ∧
      (startGame g).game.gameOver = g.gameOver ∧
      (startGame g).game.showDice = g.showDice ∧
      (startGame g).game.players =
        g.players.modifyHead (fun p => { p with isCurrentTurn := true })) ∧
    (g.players.length < 2 →
      startGame g = ⟨g, [.errorEv "Need at least 2 players to start"]⟩) := by
  constructor
  · intro h2
    have hcond : ¬g.players.length < 2 := by omega
    unfold startGame
    simp [hcond]
  · intro h2
    unfold startGame
    simp only [h2, if_true]

/-- Witness for C8: applied to the concrete started session, the repeated
startGame succeeds and leaves the stored bid in place. -/
theorem C8_start_checks_only_count_witness :
    (startGame g3.game).events = [.gameStartedEv] ∧
    (startGame g3.game).game.currentBid = g3.game.currentBid :=
  ⟨((C8_start_checks_only_count g3.game).1 (by decide)).1,
   ((C8_start_checks_only_count g3.game).1 (by decide)).2.2.1⟩

/-- The probability loop computes the product over the loop range. -/
theorem probLoop_eq_prod (q : ℚ) (n : Nat) :
    probLoop q n = ((List.range n).map (fun (i : Nat) => 1 / 6 * q / ((i : ℚ) + 1))).prod := by
  induction n with
  | zero => simp [probLoop]
  | succ n ih =>
    rw [probLoop, List.range_succ, List.map_append, List.prod_append, ← ih]
    simp

/-- Claim C6 is false on the code: the loop multiplies by
(1 over 6) * opponentDiceCount / (i + 1) with no (- i) term.  With a hand
of five ones against the bid of two fives and five opponent dice, the code
probability is 25 over 72 while the formula of the claim gives 5 over 18,
which is below the 0.3 threshold, yet the AI does not call the bluff. -/
theorem C6_cex :
    computeProbability [1, 1, 1, 1, 1] ⟨2, 5, "x"⟩ 5 = 25 / 72 ∧
    claimedProbability [1, 1, 1, 1, 1] ⟨2, 5, "x"⟩ 5 = 5 / 18 ∧
    computeProbability [1, 1, 1, 1, 1] ⟨2, 5, "x"⟩ 5 ≠
      claimedProbability [1, 1, 1, 1, 1] ⟨2, 5, "x"⟩ 5 ∧
    claimedProbability [1, 1, 1, 1, 1] ⟨2, 5, "x"⟩ 5 < 3 / 10 ∧
    aiCallsBluff [1, 1, 1, 1, 1] ⟨2, 5, "x"⟩ 5 = false := by
  have h1 : computeProbability [1, 1, 1, 1, 1] ⟨2, 5, "x"⟩ 5 = 25 / 72 := by
    norm_num [computeProbability, probLoop, ratMin, ratMax]
  have h2 : claimedProbability [1, 1, 1, 1, 1] ⟨2, 5, "x"⟩ 5 = 5 / 18 := by
    norm_num [claimedProbability, ratMin, ratMax, (show ((2 : Int)).toNat = 2 from rfl),
      List.range_succ, List.range_zero, List.map_append, List.prod_append, List.map_cons,
      List.map_nil, List.prod_cons, List.prod_nil]
  refine ⟨h1, h2, ?_, ?_, ?_⟩
  · rw [h1, h2]; norm_num
  · rw [h2]; norm_num
  · norm_num [aiCallsBluff, computeProbability, probLoop, ratMin, ratMax]

/-- Claim C6 (amended): with needed the bid count minus the matching dice
in hand, the AI probability equals one when needed is at most zero, zero
when needed exceeds the opponent total, and otherwise the clamped product
over i below needed of (1 over 6) * opponentDiceTotal / (i + 1) — the
factor is the full opponent total, without the (- i) the claim stated —
and the AI calls bluff exactly when this probability is below 0.3. -/
theorem C6_probability_formula (hand : List Int) (cb : Bid) (opp : Int) :
    (computeProbability hand cb opp =
      (if cb.count - Int.ofNat (hand.filter (fun d => d == cb.value)).length ≤ 0 then 1
       else if opp < cb.count - Int.ofNat (hand.filter (fun d => d == cb.value)).length then 0
       else ratMin 1 (ratMax 0
         (((List.range (cb.count -
             Int.ofNat (hand.filter (fun d => d == cb.value)).length).toNat).map
           (fun (i : Nat) => 1 / 6 * (opp : ℚ) / ((i : ℚ) + 1))).prod)))) ∧
    (aiCallsBluff hand cb opp = true ↔ computeProbability hand cb opp < 3 / 10) := by
  constructor
  · unfold computeProbability
    dsimp only
    split_ifs <;> simp [probLoop_eq_prod]
  · unfold aiCallsBluff
    simp

/-- A successful bid application emits no error event. -/
theorem makeBidApply_no_error (g : Game) (pid : String) (c v : Int) (m : String) :
    Event.errorEv m ∉ (makeBidApply g pid c v).events := by
  unfold makeBidApply
  dsimp only
  split <;> simp

/-- A bluff resolution emits no error event. -/
theorem resolveBluffCore_no_error (g : Game) (cb : Bid) (ch bd : Player)
    (rows : Nat → Nat → Nat) (m : String) :
    Event.errorEv m ∉ (resolveBluffCore g cb ch bd rows).events := by
  unfold resolveBluffCore
  dsimp only
  repeat' split
  all_goals simp

/-- Every makeBid outcome either leaves the game untouched or emits no
error event at all. -/
theorem makeBid_cases (g : Game) (pid : String) (c v : Int) :
    (makeBid g pid c v).game = g ∨
    (∀ m, Event.errorEv m ∉ (makeBid g pid c v).events) := by
  unfold makeBid
  split
  · exact Or.inl rfl
  · split
    · exact Or.inl rfl
    · split
      · split
        · exact Or.inl rfl
        · exact Or.inr (fun m => makeBidApply_no_error g pid c v m)
      · exact Or.inr (fun m => makeBidApply_no_error g pid c v m)

/-- Every callBluff outcome leaves the game untouched, or fails the bidder
lookup with showDice already set, or emits no error event at all. -/
theorem callBluff_cases (g : Game) (pid : String) (rows : Nat → Nat → Nat) :
    (callBluff g pid rows).game = g ∨
    ((callBluff g pid rows).game = { g with showDice := true } ∧
      (callBluff g pid rows).events = [.errorEv "Player not found"]) ∨
    (∀ m, Event.errorEv m ∉ (callBluff g pid rows).events) := by
  unfold callBluff
  cases hb : g.currentBid with
  | none => exact Or.inl rfl
  | some cb =>
    dsimp only
    cases hf : g.players.find? (fun p => p.id == pid) with
    | none => exact Or.inl rfl
    | some player =>
      dsimp only
      cases ht : player.isCurrentTurn with
      | false => exact Or.inl rfl
      | true =>
        rw [if_neg (by simp [ht])]
        cases hbd : g.players.find? (fun p => p.id == cb.playerId) with
        | none => exact Or.inr (Or.inl ⟨rfl, rfl⟩)
        | some bidder =>
          exact Or.inr (Or.inr (fun m => resolveBluffCore_no_error _ _ _ _ rows m))

/-- Claim C9 is false on the code: in the reachable session whose bidder
disconnected after bidding, the callBluff of the remaining turn holder
fails the bidder lookup and emits an error, yet it has already mutated the
session by setting showDice. -/
theorem C9_cex :
    Reachable g4 ∧
    (callBluff g4.game "p2" zeroRows).events = [.errorEv "Player not found"] ∧
    (callBluff g4.game "p2" zeroRows).game ≠ g4.game ∧
    g4.game.showDice = false ∧
    (callBluff g4.game "p2" zeroRows).game.showDice = true :=
  ⟨reach_g4, by decide⟩

/-- Claim C9 (amended): every failed precondition leaves the session state
unchanged, with one exception: the bidder-lookup failure inside callBluff
happens after showDice was set, so that error leaves a session identical to
the old one except showDice true. -/
theorem C9_error_frame :
    (∀ g pid pname sock row m, Event.errorEv m ∈ (joinGame g pid pname sock row).events →
      (joinGame g pid pname sock row).game = g) ∧
    (∀ g m, Event.errorEv m ∈ (startGame g).events → (startGame g).game = g) ∧
    (∀ g cid row m, Event.errorEv m ∈ (addComputer g cid row).events →
      (addComputer g cid row).game = g) ∧
    (∀ g pid c v m, Event.errorEv m ∈ (makeBid g pid c v).events →
      (makeBid g pid c v).game = g) ∧
    (∀ g pid rows m, Event.errorEv m ∈ (callBluff g pid rows).events →
      (callBluff g pid rows).game = g ∨
      ((callBluff g pid rows).game = { g with showDice := true } ∧ m = "Player not found")) := by
  refine ⟨?_, ?_, ?_, ?_, ?_⟩
  · intro g pid pname sock row m hm
    have hc : (joinGame g pid pname sock row).game = g ∨
        (∀ w, Event.errorEv w ∉ (joinGame g pid pname sock row).events) := by
      unfold joinGame
      split
      · exact Or.inl rfl
      · split
        · exact Or.inl rfl
        · refine Or.inr (fun w => ?_)
          simp
    rcases hc with h | h
    · exact h
    · exact absurd hm (h m)
  · intro g m hm
    have hc : (startGame g).game = g ∨
        (∀ w, Event.errorEv w ∉ (startGame g).events) := by
      unfold startGame
      split
      · exact Or.inl rfl
      · refine Or.inr (fun w => ?_)
        simp
    rcases hc with h | h
    · exact h
    · exact absurd hm (h m)
  · intro g cid row m hm
    have hc : (addComputer g cid row).game = g ∨
        (∀ w, Event.errorEv w ∉ (addComputer g cid row).events) := by
      unfold addComputer
      split
      · exact Or.inl rfl
      · refine Or.inr (fun w => ?_)
        simp
    rcases hc with h | h
    · exact h
    · exact absurd hm (h m)
  · intro g pid c v m hm
    rcases makeBid_cases g pid c v with h | h
    · exact h
    · exact absurd hm (h m)
  · intro g pid rows m hm
    rcases callBluff_cases g pid rows with h | ⟨h1, h2⟩ | h
    · exact Or.inl h
    · rw [h2] at hm
      simp at hm
      exact Or.inr ⟨h1, hm⟩
    · exact absurd hm (h m)

/-- Witness for C9: the rejected startGame on the freshly created solo
session emits its error and leaves the session untouched. -/
theorem C9_error_frame_witness :
    Event.errorEv "Need at least 2 players to start" ∈ (startGame g0.game).events ∧
    (startGame g0.game).game = g0.game :=
  ⟨by decide, C9_error_frame.2.1 g0.game "Need at least 2 players to start" (by decide)⟩

/-- With nobody holding the turn, every makeBid is rejected unchanged, and
with the not-your-turn error whenever the player lookup succeeds. -/
theorem makeBid_no_turn (g : Game) (pid : String) (c v : Int)
    (hall : ∀ p ∈ g.players, p.isCurrentTurn = false) :
    ∃ m, makeBid g pid c v = ⟨g, [.errorEv m]⟩ ∧
      (∀ p, g.players.find? (fun q => q.id == pid) = some p → m = "Not your turn") := by
  unfold makeBid
  cases hf : g.players.find? (fun q => q.id == pid) with
  | none => exact ⟨"Player not found", rfl, fun p hp => nomatch hp⟩
  | some p =>
    have hturn := hall p (List.mem_of_find?_eq_some hf)
    refine ⟨"Not your turn", ?_, fun _ _ => rfl⟩
    simp [hturn]

/-- With nobody holding the turn, every callBluff is rejected unchanged,
and with the not-your-turn error whenever a bid is outstanding and the
player lookup succeeds. -/
theorem callBluff_no_turn (g : Game) (pid : String) (rows : Nat → Nat → Nat)
    (hall : ∀ p ∈ g.players, p.isCurrentTurn = false) :
    ∃ m, callBluff g pid rows = ⟨g, [.errorEv m], none⟩ ∧
      (∀ cb p, g.currentBid = some cb →
        g.players.find? (fun q => q.id == pid) = some p → m = "Not your turn") := by
  unfold callBluff
  cases hb : g.currentBid with
  | none =>
    exact ⟨"No bid to call bluff on", rfl, fun cb p hcb => nomatch hcb⟩
  | some cb =>
    cases hf : g.players.find? (fun q => q.id == pid) with
    | none => exact ⟨"Player not found", rfl, fun cb' p hcb hp => nomatch hp⟩
    | some p =>
      have hturn := hall p (List.mem_of_find?_eq_some hf)
      refine ⟨"Not your turn", ?_, fun _ _ _ _ => rfl⟩
      simp [hturn]

/-- Disconnect splices exactly the matched index and keeps every other
field of the game. -/
theorem disconnectGame_frame (g : Game) (sock : String) (idx : Nat)
    (hidx : g.players.findIdx? (fun p => p.socketId == sock) = some idx) :
    (disconnectGame g sock).game.players = g.players.eraseIdx idx ∧
    (disconnectGame g sock).game.currentBid = g.currentBid ∧
    (disconnectGame g sock).game.gameStarted = g.gameStarted ∧
    (disconnectGame g sock).game.gameOver = g.gameOver ∧
    (disconnectGame g sock).game.showDice = g.showDice := by
  unfold disconnectGame
  rw [hidx]
  exact ⟨rfl, rfl, rfl, rfl, rfl⟩

/-- Claim C10 is false in one stated detail: after the turn holder p1
disconnects from the started session with no bid outstanding, the remaining
player p2 is indeed left with no turn holder, but the subsequent callBluff
is rejected with the no-bid error rather than the claimed not-your-turn
error. -/
theorem C10_cex :
    Reachable g5 ∧
    g2.game.gameStarted = true ∧ g2.game.gameOver = false ∧
    g2.game.players.map (fun p => (p.socketId, p.isCurrentTurn)) =
      [("s1", true), ("s2", false)] ∧
    g5.game = (disconnectGame g2.game "s1").game ∧
    (∀ p ∈ g5.game.players, p.isCurrentTurn = false) ∧
    g5.game.players ≠ [] ∧
    callBluff g5.game "p2" zeroRows = ⟨g5.game, [.errorEv "No bid to call bluff on"], none⟩ ∧
    "No bid to call bluff on" ≠ "Not your turn" :=
  ⟨reach_g5, by decide⟩

/-- Claim C10 (amended): disconnect only splices out the matching
participant and never reassigns the turn, so when every remaining
participant lacks the turn flag, no participant holds it afterwards, every
subsequent makeBid is rejected unchanged with the not-your-turn error (for
an existing participant), and every subsequent callBluff is rejected
unchanged, with the not-your-turn error whenever a bid is outstanding and
with the no-bid error otherwise; the session cannot progress through these
commands. -/
theorem C10_disconnect_deadlock (g : Game) (sock : String) (idx : Nat)
    (hidx : g.players.findIdx? (fun p => p.socketId == sock) = some idx)
    (hothers : ∀ p ∈ g.players.eraseIdx idx, p.isCurrentTurn = false) :
    (disconnectGame g sock).game.players = g.players.eraseIdx idx ∧
    (∀ p ∈ (disconnectGame g sock).game.players, p.isCurrentTurn = false) ∧
    (∀ pid c v, ∃ m, makeBid (disconnectGame g sock).game pid c v =
        ⟨(disconnectGame g sock).game, [.errorEv m]⟩ ∧
      (∀ p, (disconnectGame g sock).game.players.find? (fun q => q.id == pid) = some p →
        m = "Not your turn")) ∧
    (∀ pid rows, ∃ m, callBluff (disconnectGame g sock).game pid rows =
        ⟨(disconnectGame g sock).game, [.errorEv m], none⟩ ∧
      (∀ cb p, (disconnectGame g sock).game.currentBid = some cb →
        (disconnectGame g sock).game.players.find? (fun q => q.id == pid) = some p →
        m = "Not your turn")) := by
  obtain ⟨hp, -, -, -, -⟩ := disconnectGame_frame g sock idx hidx
  have hall : ∀ p ∈ (disconnectGame g sock).game.players, p.isCurrentTurn = false := by
    rw [hp]; exact hothers
  exact ⟨hp, hall, fun pid c v => makeBid_no_turn _ pid c v hall,
    fun pid rows => callBluff_no_turn _ pid rows hall⟩

/-- Witness for C10: in the concrete started session, p1 with socket s1 is
the sole turn holder; the disconnect of s1 leaves p2 alone without the turn
and the remaining commands dead. -/
theorem C10_disconnect_deadlock_witness :
    (disconnectGame g2.game "s1").game.players = g2.game.players.eraseIdx 0 ∧
    (∀ p ∈ (disconnectGame g2.game "s1").game.players, p.isCurrentTurn = false) :=
  ⟨(C10_disconnect_deadlock g2.game "s1" 0 (by decide) (by decide)).1,
   (C10_disconnect_deadlock g2.game "s1" 0 (by decide) (by decide)).2.1⟩

/-- Setting the turn flag to an index comparison along an enumeration
leaves exactly one flag set when the index is in range. -/
theorem countP_turn_enumFrom (l : List Player) (k n : Nat) :
    (((l.enumFrom k).map (fun x => { x.2 with isCurrentTurn := x.1 == n })).countP
      (fun q => q.isCurrentTurn)) = if k ≤ n ∧ n < k + l.length then 1 else 0 := by
  induction l generalizing k with
  | nil =>
    simp only [List.enumFrom_nil, List.map_nil, List.countP_nil, List.length_nil]
    split_ifs <;> omega
  | cons a as ih =>
    rw [List.enumFrom_cons, List.map_cons, List.countP_cons, ih (k + 1)]
    simp only [List.length_cons, beq_iff_eq]
    split_ifs <;> omega

/-- The turn reassignment of a successful bid leaves exactly one turn flag
set when the target index is in range. -/
theorem countP_turn_mapIdx (l : List Player) (n : Nat) (hn : n < l.length) :
    ((l.mapIdx (fun i p => { p with isCurrentTurn := i == n })).countP
      (fun q => q.isCurrentTurn)) = 1 := by
  rw [List.mapIdx_eq_enum_map]
  have hfun : (Function.uncurry fun i p => { p with isCurrentTurn := i == n }) =
      (fun x : Nat × Player => { x.2 with isCurrentTurn := x.1 == n }) :=
    funext fun x => rfl
  rw [List.enum, hfun, countP_turn_enumFrom l 0 n]
  simp only [Nat.zero_add]
  rw [if_pos ⟨Nat.zero_le n, hn⟩]

/-- Claim C5 is false on the code: the reachable session where p1 bid in
the lobby and then started the game is Active (started, not over) with two
participants holding the turn flag, since startGame grants the flag to the
first player without clearing the flag the lobby bid moved to p2.  (The
Lobby part fails too: the creator holds the flag before the start.) -/
theorem C5_cex :
    Reachable k3 ∧ k3.game.gameStarted = true ∧ k3.game.gameOver = false ∧
    k3.game.players.countP (fun p => p.isCurrentTurn) = 2 ∧
    g0.game.gameStarted = false ∧
    g0.game.players.countP (fun p => p.isCurrentTurn) = 1 :=
  ⟨reach_k3, by decide⟩

/-- Claim C5 (amended): the at-most-one-turn invariant is not maintained as
a state invariant (the creator holds the flag in the Lobby, the flag
survives game over, and startGame can create a second flag holder), but
each turn-assigning operation alone establishes it: a successful makeBid
leaves exactly one participant with isTurn, and the new-round update sets
isTurn exactly on the participants whose id is the challenger id. -/
theorem C5_turn_flags (g : Game) (pid : String) (c v : Int) (p : Player) (cid : String)
    (hf : g.players.find? (fun q => q.id == pid) = some p)
    (ht : p.isCurrentTurn = true)
    (hh : BidHigher g.currentBid c v) :
    ((makeBid g pid c v).game.players.countP (fun q => q.isCurrentTurn) = 1) ∧
    (∀ q ∈ (newRoundUpdate g cid).players, q.isCurrentTurn = (q.id == cid)) := by
  constructor
  · rw [makeBid_accepted g pid c v p hf ht hh, makeBidApply_players]
    apply countP_turn_mapIdx
    exact Nat.mod_lt _ (List.length_pos.mpr (List.ne_nil_of_mem (List.mem_of_find?_eq_some hf)))
  · intro q hq
    unfold newRoundUpdate at hq
    dsimp only at hq
    rcases List.mem_map.mp hq with ⟨r, hr, rfl⟩
    rfl

/-- Witness for C5: the accepted opening bid in the concrete started
session leaves exactly one turn flag. -/
theorem C5_turn_flags_witness :
    (makeBid g2.game "p1" 2 3).game.players.countP (fun q => q.isCurrentTurn) = 1 :=
  (C5_turn_flags g2.game "p1" 2 3 ⟨"p1", "Alice", [1, 1, 1, 1, 1], 5, true, "s1"⟩ "p2"
      (by decide) (by decide)
      (by intro cb h; rw [(by decide : g2.game.currentBid = (none : Option Bid))] at h;
          cases h)).1

/-- A successful find? locates its witness at the findIdx position. -/
theorem getElem?_findIdx_of_find? {α : Type} (pr : α → Bool) (l : List α) (a : α)
    (h : l.find? pr = some a) : l[l.findIdx pr]? = some a := by
  induction l with
  | nil => simp at h
  | cons x xs ih =>
    by_cases hx : pr x = true
    · rw [List.find?_cons_of_pos _ hx] at h
      rw [List.findIdx_cons, hx]
      simpa using h
    · have hx' : pr x = false := by simpa using hx
      rw [List.find?_cons_of_neg _ (by simp [hx'])] at h
      rw [List.findIdx_cons, hx']
      simpa using ih h

/-- Positions in a list without duplicates are determined by the value. -/
theorem nodup_getElem?_inj {α : Type} {l : List α} (h : l.Nodup) {i j : Nat} {a : α}
    (hi : l[i]? = some a) (hj : l[j]? = some a) : i = j := by
  rcases List.getElem?_eq_some_iff.mp hi with ⟨hi1, -⟩
  exact List.getElem?_inj hi1 h (by rw [hi, hj])

/-- Every die from the entropy stream lies between one and six. -/
theorem dieOf_bounds (n : Nat) : 1 ≤ dieOf n ∧ dieOf n ≤ 6 := by
  unfold dieOf
  have h6 : n % 6 < 6 := Nat.mod_lt n (by omega)
  simp only [Int.ofNat_eq_natCast]
  omega

/-- A roll produces exactly the requested number of dice. -/
theorem rollDice_length (row : Nat → Nat) (n : Nat) : (rollDice row n).length = n := by
  simp [rollDice]

/-- Every rolled die lies between one and six. -/
theorem rollDice_bounds (row : Nat → Nat) (n : Nat) :
    ∀ d ∈ rollDice row n, 1 ≤ d ∧ d ≤ 6 := by
  intro d hd
  rcases List.mem_map.mp hd with ⟨k, -, rfl⟩
  exact dieOf_bounds (row k)

/-- The reduce of the source equals the sum of per-player matching counts,
the formula the claims state. -/
theorem countMatching_eq_sum (l : List Player) (v : Int) :
    countMatching l v =
      Int.ofNat ((l.map (fun p => (p.dice.filter (fun d => d == v)).length)).sum) := by
  suffices h : ∀ a : Int,
      l.foldl (fun c p => c + Int.ofNat (p.dice.filter (fun d => d == v)).length) a =
        a + Int.ofNat ((l.map (fun p => (p.dice.filter (fun d => d == v)).length)).sum) by
    simpa [countMatching] using h 0
  induction l with
  | nil => intro a; simp
  | cons x xs ih =>
    intro a
    rw [List.foldl_cons, ih, List.map_cons, List.sum_cons]
    simp only [Int.ofNat_eq_natCast]
    push_cast
    ring

/-- The new-round timeout clears the bid and the reveal flag and hands the
turn exactly to the ids equal to the challenger id. -/
theorem newRoundUpdate_spec (g : Game) (cid : String) :
    (newRoundUpdate g cid).currentBid = none ∧
    (newRoundUpdate g cid).showDice = false ∧
    (∀ q ∈ (newRoundUpdate g cid).players, q.isCurrentTurn = (q.id == cid)) := by
  refine ⟨rfl, rfl, ?_⟩
  intro q hq
  unfold newRoundUpdate at hq
  dsimp only at hq
  rcases List.mem_map.mp hq with ⟨r, hr, rfl⟩
  rfl

/-- With all the lookups succeeding, callBluff reduces to the shared bluff
resolution on the revealed session. -/
theorem callBluff_eq_core (g : Game) (pid : String) (rows : Nat → Nat → Nat)
    (cb : Bid) (ch bd : Player)
    (hb : g.currentBid = some cb)
    (hf : g.players.find? (fun q => q.id == pid) = some ch)
    (ht : ch.isCurrentTurn = true)
    (hbd : g.players.find? (fun q => q.id == cb.playerId) = some bd) :
    callBluff g pid rows = resolveBluffCore { g with showDice := true } cb ch bd rows := by
  unfold callBluff
  rw [hb]
  dsimp only
  rw [hf]
  dsimp only
  rw [if_neg (by simp [ht])]
  rw [hbd]

/-- The players after a bluff resolution: one die removed from the loser at
its index, then the rows of every other player with dice left re-rolled. -/
theorem resolveBluffCore_players (G : Game) (cb : Bid) (ch bd lsr : Player)
    (rows : Nat → Nat → Nat)
    (hl : (if cb.count ≤ countMatching G.players cb.value then ch else bd) = lsr)
    (hql : G.players[G.players.findIdx (fun p => p.id == lsr.id)]? = some lsr) :
    (resolveBluffCore G cb ch bd rows).game.players = afterBluffPlayers G lsr rows := by
  unfold resolveBluffCore afterBluffPlayers
  dsimp only
  rw [hl, hql]
  dsimp only
  repeat' split
  all_goals rfl

/-- A bluff resolution does not touch the reveal flag, the bid, the id or
the started flag of the session. -/
theorem resolveBluffCore_frame (G : Game) (cb : Bid) (ch bd : Player)
    (rows : Nat → Nat → Nat) :
    (resolveBluffCore G cb ch bd rows).game.showDice = G.showDice ∧
    (resolveBluffCore G cb ch bd rows).game.currentBid = G.currentBid ∧
    (resolveBluffCore G cb ch bd rows).game.id = G.id ∧
    (resolveBluffCore G cb ch bd rows).game.gameStarted = G.gameStarted := by
  unfold resolveBluffCore
  dsimp only
  repeat' split
  all_goals exact ⟨rfl, rfl, rfl, rfl⟩

/-- The first event of a bluff resolution reports the challenger, the
loser, the matching total and the bid value. -/
theorem resolveBluffCore_events_head (G : Game) (cb : Bid) (ch bd lsr : Player)
    (rows : Nat → Nat → Nat)
    (hl : (if cb.count ≤ countMatching G.players cb.value then ch else bd) = lsr) :
    (resolveBluffCore G cb ch bd rows).events.head? =
      some (.bluffCalled ch.id lsr.id (countMatching G.players cb.value) cb.value) := by
  unfold resolveBluffCore
  dsimp only
  rw [hl]
  repeat' split
  all_goals rfl

/-- When no hand is empty after the resolution, a new round is scheduled
for the challenger. -/
theorem resolveBluffCore_sched (G : Game) (cb : Bid) (ch bd lsr : Player)
    (rows : Nat → Nat → Nat)
    (hl : (if cb.count ≤ countMatching G.players cb.value then ch else bd) = lsr)
    (hql : G.players[G.players.findIdx (fun p => p.id == lsr.id)]? = some lsr)
    (hz : (afterBluffPlayers G lsr rows).any (fun p => p.diceCount == 0) = false) :
    (resolveBluffCore G cb ch bd rows).sched = some ch.id := by
  unfold afterBluffPlayers at hz
  unfold resolveBluffCore
  dsimp only
  rw [hl, hql]
  dsimp only
  rw [hz]
  rfl

/-- A player found by id sits at the index found for its own id. -/
theorem find?_id_getElem?_findIdx (l : List Player) (pid : String) (a : Player)
    (h : l.find? (fun q => q.id == pid) = some a) :
    l[l.findIdx (fun p => p.id == a.id)]? = some a := by
  have hsome := List.find?_some (p := fun q : Player => q.id == pid) (a := a) h
  have hid : a.id = pid := eq_of_beq hsome
  have hpred : (fun p : Player => p.id == a.id) = (fun q => q.id == pid) := by
    funext p
    rw [hid]
  rw [hpred]
  exact getElem?_findIdx_of_find? _ l a h

/-- Claim C2: for a successful callBluff in an Active session (bid present,
caller holding the turn, bidder found, session ids without duplicates), the
matching total is the sum over all hands of dice equal to the bid value,
the loser is the challenger exactly when the total covers the bid count and
the bidder otherwise, the loser drops exactly one die and is re-rolled to
the new count (emptied at zero), every other participant with dice left is
re-rolled, and when no hand is empty the scheduled new round clears the bid
and the reveal flag and hands the turn exactly to the challenger id. -/
theorem C2_bluff_resolution (g : Game) (pid : String) (rows : Nat → Nat → Nat)
    (cb : Bid) (ch bd : Player)
    (hs : g.gameStarted = true) (ho : g.gameOver = false)
    (hb : g.currentBid = some cb)
    (hf : g.players.find? (fun q => q.id == pid) = some ch)
    (ht : ch.isCurrentTurn = true)
    (hbd : g.players.find? (fun q => q.id == cb.playerId) = some bd)
    (hnd : (g.players.map Player.id).Nodup) :
    countMatching g.players cb.value =
      Int.ofNat ((g.players.map (fun p => (p.dice.filter (fun d => d == cb.value)).length)).sum) ∧
    bluffLoser g cb ch bd = (if cb.count ≤ countMatching g.players cb.value then ch else bd) ∧
    (callBluff g pid rows).game.showDice = true ∧
    (callBluff g pid rows).events.head? = some (.bluffCalled ch.id
        (bluffLoser g cb ch bd).id (countMatching g.players cb.value) cb.value) ∧
    (callBluff g pid rows).game.players.length = g.players.length ∧
    (∀ (i : Nat) (p q : Player), g.players[i]? = some p →
       (callBluff g pid rows).game.players[i]? = some q →
       q.id = p.id ∧ q.name = p.name ∧ q.socketId = p.socketId ∧
       (p.id = (bluffLoser g cb ch bd).id →
          q.diceCount = p.diceCount - 1 ∧
          (0 < p.diceCount - 1 → q.dice.length = (p.diceCount - 1).toNat ∧
             ∀ d ∈ q.dice, 1 ≤ d ∧ d ≤ 6) ∧
          (p.diceCount - 1 ≤ 0 → q.dice = [])) ∧
       (p.id ≠ (bluffLoser g cb ch bd).id →
          q.diceCount = p.diceCount ∧
          (0 < p.diceCount → q.dice.length = p.diceCount.toNat ∧
             ∀ d ∈ q.dice, 1 ≤ d ∧ d ≤ 6))) ∧
    ((∀ q ∈ (callBluff g pid rows).game.players, q.diceCount ≠ 0) →
       (callBluff g pid rows).sched = some ch.id ∧
       (newRoundUpdate (callBluff g pid rows).game ch.id).currentBid = none ∧
       (newRoundUpdate (callBluff g pid rows).game ch.id).showDice = false ∧
       (∀ q ∈ (newRoundUpdate (callBluff g pid rows).game ch.id).players,
          q.isCurrentTurn = (q.id == ch.id))) := by
  have hcore := callBluff_eq_core g pid rows cb ch bd hb hf ht hbd
  have hql : g.players[g.players.findIdx
      (fun p => p.id == (bluffLoser g cb ch bd).id)]? = some (bluffLoser g cb ch bd) := by
    unfold bluffLoser bluffTotal
    split
    · exact find?_id_getElem?_findIdx g.players pid ch hf
    · exact find?_id_getElem?_findIdx g.players cb.playerId bd hbd
  have hlG : (if cb.count ≤
      countMatching ({ g with showDice := true } : Game).players cb.value then ch else bd) =
      bluffLoser g cb ch bd := by
    unfold bluffLoser bluffTotal
    rfl
  have hqlG : ({ g with showDice := true } : Game).players[({ g with showDice := true } :
      Game).players.findIdx (fun p => p.id == (bluffLoser g cb ch bd).id)]? =
      some (bluffLoser g cb ch bd) := hql
  have hps := resolveBluffCore_players { g with showDice := true } cb ch bd
    (bluffLoser g cb ch bd) rows hlG hqlG
  have hlen : g.players.findIdx (fun p => p.id == (bluffLoser g cb ch bd).id) <
      g.players.length := (List.getElem?_eq_some_iff.mp hql).1
  refine ⟨countMatching_eq_sum g.players cb.value, ?_, ?_, ?_, ?_, ?_, ?_⟩
  · unfold bluffLoser bluffTotal
    rfl
  · rw [hcore]
    exact (resolveBluffCore_frame _ cb ch bd rows).1
  · rw [hcore]
    exact resolveBluffCore_events_head _ cb ch bd (bluffLoser g cb ch bd) rows hlG
  · rw [hcore, hps]
    unfold afterBluffPlayers
    rw [List.length_mapIdx, List.length_set]
  · intro i p q hpi hqi
    rw [hcore, hps] at hqi
    unfold afterBluffPlayers at hqi
    dsimp only at hqi
    rw [List.getElem?_mapIdx] at hqi
    by_cases hi : i = g.players.findIdx (fun p => p.id == (bluffLoser g cb ch bd).id)
    · subst hi
      rw [List.getElem?_set_self (by simpa using hlen)] at hqi
      have hp : p = bluffLoser g cb ch bd := by
        have := hql.symm.trans hpi
        exact (Option.some.inj this).symm
      have hguard : ¬(({ (bluffLoser g cb ch bd) with
          diceCount := (bluffLoser g cb ch bd).diceCount - 1,
          dice := if 0 < (bluffLoser g cb ch bd).diceCount - 1 then
              rollDice (rows 0) ((bluffLoser g cb ch bd).diceCount - 1).toNat
            else [] } : Player).id ≠ (bluffLoser g cb ch bd).id ∧
          0 < ({ (bluffLoser g cb ch bd) with
          diceCount := (bluffLoser g cb ch bd).diceCount - 1,
          dice := if 0 < (bluffLoser g cb ch bd).diceCount - 1 then
              rollDice (rows 0) ((bluffLoser g cb ch bd).diceCount - 1).toNat
            else [] } : Player).diceCount) := by
        intro hcontra
        exact hcontra.1 rfl
      rw [Option.map_some', if_neg hguard] at hqi
      have hq : q = { (bluffLoser g cb ch bd) with
          diceCount := (bluffLoser g cb ch bd).diceCount - 1,
          dice := if 0 < (bluffLoser g cb ch bd).diceCount - 1 then
              rollDice (rows 0) ((bluffLoser g cb ch bd).diceCount - 1).toNat
            else [] } := (Option.some.inj hqi).symm
      subst hp hq
      refine ⟨rfl, rfl, rfl, ?_, ?_⟩
      · intro _
        refine ⟨rfl, ?_, ?_⟩
        · intro hpos
          dsimp only
          rw [if_pos hpos]
          exact ⟨rollDice_length _ _, rollDice_bounds _ _⟩
        · intro hle
          dsimp only
          rw [if_neg (by omega)]
      · intro hne
        exact absurd rfl hne
    · have hset : (({ g with showDice := true } : Game).players.set
          (g.players.findIdx (fun p => p.id == (bluffLoser g cb ch bd).id))
          { (bluffLoser g cb ch bd) with
            diceCount := (bluffLoser g cb ch bd).diceCount - 1,
            dice := if 0 < (bluffLoser g cb ch bd).diceCount - 1 then
                rollDice (rows 0) ((bluffLoser g cb ch bd).diceCount - 1).toNat
              else [] })[i]? = g.players[i]? :=
        List.getElem?_set_ne (Ne.symm hi)
      rw [hset, hpi, Option.map_some'] at hqi
      have hq := (Option.some.inj hqi).symm
      by_cases hpid : p.id = (bluffLoser g cb ch bd).id
      · exfalso
        have h1 : (g.players.map Player.id)[i]? = some (bluffLoser g cb ch bd).id := by
          rw [List.getElem?_map, hpi, Option.map_some', hpid]
        have h2 : (g.players.map Player.id)[g.players.findIdx
            (fun p => p.id == (bluffLoser g cb ch bd).id)]? =
            some (bluffLoser g cb ch bd).id := by
          rw [List.getElem?_map, hql, Option.map_some']
        exact hi (nodup_getElem?_inj hnd h1 h2)
      · by_cases hpos : 0 < p.diceCount
        · rw [if_pos ⟨hpid, hpos⟩] at hq
          subst hq
          refine ⟨rfl, rfl, rfl, fun hcon => absurd hcon hpid, fun _ => ⟨rfl, ?_⟩⟩
          intro _
          exact ⟨rollDice_length _ _, rollDice_bounds _ _⟩
        · rw [if_neg (by tauto)] at hq
          subst hq
          exact ⟨rfl, rfl, rfl, fun hcon => absurd hcon hpid,
            fun _ => ⟨rfl, fun hcon => absurd hcon hpos⟩⟩
  · intro hnz
    have hz : (afterBluffPlayers { g with showDice := true }
        (bluffLoser g cb ch bd) rows).any (fun p => p.diceCount == 0) = false := by
      refine List.any_eq_false.mpr ?_
      intro x hx
      have hmem : x ∈ (callBluff g pid rows).game.players := by
        rw [hcore, hps]
        exact hx
      have := hnz x hmem
      simp [this]
    refine ⟨?_, (newRoundUpdate_spec _ _).1, (newRoundUpdate_spec _ _).2.1,
      (newRoundUpdate_spec _ _).2.2⟩
    rw [hcore]
    exact resolveBluffCore_sched _ cb ch bd (bluffLoser g cb ch bd) rows hlG hqlG hz

/-- Witness for C2: in the concrete mid-game session the bluff call by p2
against the true bid of two threes reveals the dice and reports p2 as the
loser of the five matching dice. -/
theorem C2_bluff_resolution_witness :
    (callBluff c2g "p2" zeroRows).game.showDice = true ∧
    (callBluff c2g "p2" zeroRows).events.head? =
      some (.bluffCalled "p2" "p2" 5 3) :=
  ⟨(C2_bluff_resolution c2g "p2" zeroRows ⟨2, 3, "p1"⟩
      ⟨"p2", "Bob", [1, 1, 1, 1, 1], 5, true, "s2"⟩
      ⟨"p1", "Alice", [3, 3, 3, 3, 3], 5, false, "s1"⟩
      rfl rfl rfl (by decide) rfl (by decide) (by decide)).2.2.1,
   (C2_bluff_resolution c2g "p2" zeroRows ⟨2, 3, "p1"⟩
      ⟨"p2", "Bob", [1, 1, 1, 1, 1], 5, true, "s2"⟩
      ⟨"p1", "Alice", [3, 3, 3, 3, 3], 5, false, "s1"⟩
      rfl rfl rfl (by decide) rfl (by decide) (by decide)).2.2.2.1⟩

/-- DiceMono holds between a list and itself. -/
theorem diceMono_refl (l : List Player) : DiceMono l l :=
  fun p hp => Or.inl ⟨p, hp, rfl, Or.inl rfl⟩

/-- Every element of a mapIdx image comes from an indexed source element. -/
theorem exists_of_mem_mapIdx {α β : Type} (f : Nat → α → β) (l : List α) (b : β)
    (hb : b ∈ l.mapIdx f) : ∃ i a, l[i]? = some a ∧ b = f i a := by
  rcases List.mem_iff_getElem?.mp hb with ⟨n, hn⟩
  rw [List.getElem?_mapIdx] at hn
  cases ha : l[n]? with
  | none => rw [ha] at hn; cases hn
  | some a =>
    rw [ha, Option.map_some'] at hn
    exact ⟨n, a, ha, (Option.some.inj hn).symm⟩

/-- An indexed rewrite that keeps ids and dice counts preserves DiceMono. -/
theorem diceMono_mapIdx (l : List Player) (f : Nat → Player → Player)
    (hf : ∀ i p, (f i p).id = p.id ∧ (f i p).diceCount = p.diceCount) :
    DiceMono l (l.mapIdx f) := by
  intro p hp
  rcases exists_of_mem_mapIdx f l p hp with ⟨i, a, ha, rfl⟩
  exact Or.inl ⟨a, List.getElem?_mem ha, (hf i a).1.symm ▸ rfl, Or.inl (hf i a).2⟩

/-- A pointwise rewrite that keeps ids and dice counts preserves DiceMono. -/
theorem diceMono_map (l : List Player) (f : Player → Player)
    (hf : ∀ p, (f p).id = p.id ∧ (f p).diceCount = p.diceCount) :
    DiceMono l (l.map f) := by
  intro p hp
  rcases List.mem_map.mp hp with ⟨a, ha, rfl⟩
  exact Or.inl ⟨a, ha, (hf a).1.symm ▸ rfl, Or.inl (hf a).2⟩

/-- Appending a fresh five-dice player preserves DiceMono. -/
theorem diceMono_append_new (l : List Player) (p : Player) (h5 : p.diceCount = 5) :
    DiceMono l (l ++ [p]) := by
  intro q hq
  rcases List.mem_append.mp hq with h | h
  · exact Or.inl ⟨q, h, rfl, Or.inl rfl⟩
  · rcases List.mem_singleton.mp h with rfl
    exact Or.inr h5

/-- A head rewrite that keeps id and dice count preserves DiceMono. -/
theorem diceMono_modifyHead (l : List Player) (f : Player → Player)
    (hf : ∀ p, (f p).id = p.id ∧ (f p).diceCount = p.diceCount) :
    DiceMono l (l.modifyHead f) := by
  cases l with
  | nil => intro p hp; cases hp
  | cons x xs =>
    intro p hp
    rw [List.modifyHead_cons] at hp
    rcases List.mem_cons.mp hp with rfl | h
    · exact Or.inl ⟨x, List.mem_cons_self x xs, (hf x).1.symm ▸ rfl, Or.inl (hf x).2⟩
    · exact Or.inl ⟨p, List.mem_cons_of_mem x h, rfl, Or.inl rfl⟩

/-- Removing an index preserves DiceMono. -/
theorem diceMono_eraseIdx (l : List Player) (i : Nat) : DiceMono l (l.eraseIdx i) :=
  fun p hp => Or.inl ⟨p, (List.eraseIdx_sublist l i).subset hp, rfl, Or.inl rfl⟩

/-- The raw shape of the players after a bluff resolution when some entry
sits at the loser index. -/
theorem resolveBluffCore_players_found (G : Game) (cb : Bid) (ch bd lsr q0 : Player)
    (rows : Nat → Nat → Nat)
    (hl : (if cb.count ≤ countMatching G.players cb.value then ch else bd) = lsr)
    (hq : G.players[G.players.findIdx (fun p => p.id == lsr.id)]? = some q0) :
    (resolveBluffCore G cb ch bd rows).game.players =
      (G.players.set (G.players.findIdx (fun p => p.id == lsr.id)) { q0 with diceCount := lsr.diceCount - 1, dice := if 0 < lsr.diceCount - 1 then rollDice (rows 0) (lsr.diceCount - 1).toNat else [] }).mapIdx
        (fun i p => if p.id ≠ lsr.id ∧ 0 < p.diceCount then
            { p with dice := rollDice (rows (i + 1)) p.diceCount.toNat }
          else p) := by
  unfold resolveBluffCore
  dsimp only
  rw [hl, hq]
  dsimp only
  repeat' split
  all_goals rfl

/-- The raw shape of the players after a bluff resolution when the loser id
matches no entry. -/
theorem resolveBluffCore_players_missing (G : Game) (cb : Bid) (ch bd lsr : Player)
    (rows : Nat → Nat → Nat)
    (hl : (if cb.count ≤ countMatching G.players cb.value then ch else bd) = lsr)
    (hq : G.players[G.players.findIdx (fun p => p.id == lsr.id)]? = none) :
    (resolveBluffCore G cb ch bd rows).game.players =
      G.players.mapIdx
        (fun i p => if p.id ≠ lsr.id ∧ 0 < p.diceCount then
            { p with dice := rollDice (rows (i + 1)) p.diceCount.toNat }
          else p) := by
  unfold resolveBluffCore
  dsimp only
  rw [hl, hq]
  dsimp only
  repeat' split
  all_goals rfl

/-- A bluff resolution between two members keeps every dice count except
the loser, which drops by exactly one. -/
theorem diceMono_resolveBluffCore (G : Game) (cb : Bid) (ch bd : Player)
    (rows : Nat → Nat → Nat)
    (hch : ch ∈ G.players) (hbd : bd ∈ G.players) :
    DiceMono G.players (resolveBluffCore G cb ch bd rows).game.players := by
  have hlsr : (if cb.count ≤ countMatching G.players cb.value then ch else bd) ∈ G.players := by
    split <;> assumption
  have hid : ∀ (lsr : Player) (i : Nat) (a : Player),
      (if (a.id ≠ lsr.id ∧ 0 < a.diceCount : Prop) then
        { a with dice := rollDice (rows (i + 1)) a.diceCount.toNat } else a).id = a.id := by
    intro lsr i a
    split <;> rfl
  have hdc : ∀ (lsr : Player) (i : Nat) (a : Player),
      (if (a.id ≠ lsr.id ∧ 0 < a.diceCount : Prop) then
        { a with dice := rollDice (rows (i + 1)) a.diceCount.toNat } else a).diceCount =
        a.diceCount := by
    intro lsr i a
    split <;> rfl
  cases hq : G.players[G.players.findIdx (fun p => p.id ==
      (if cb.count ≤ countMatching G.players cb.value then ch else bd).id)]? with
  | none =>
    rw [resolveBluffCore_players_missing G cb ch bd _ rows rfl hq]
    intro p hp
    rcases exists_of_mem_mapIdx _ _ p hp with ⟨i, a, ha, rfl⟩
    exact Or.inl ⟨a, List.getElem?_mem ha, (hid _ i a).symm ▸ rfl, Or.inl (hdc _ i a)⟩
  | some q0 =>
    rw [resolveBluffCore_players_found G cb ch bd _ q0 rows rfl hq]
    intro p hp
    rcases exists_of_mem_mapIdx _ _ p hp with ⟨i, a, ha, rfl⟩
    have hmem := List.getElem?_mem ha
    rcases List.mem_or_eq_of_mem_set hmem with h | rfl
    · exact Or.inl ⟨a, h, (hid _ i a).symm ▸ rfl, Or.inl (hdc _ i a)⟩
    · have hq0beq := List.findIdx_of_getElem?_eq_some hq
      have hq0id : q0.id = (if cb.count ≤ countMatching G.players cb.value then
          ch else bd).id := eq_of_beq hq0beq
      refine Or.inl ⟨if cb.count ≤ countMatching G.players cb.value then ch else bd,
        hlsr, ?_, Or.inr ?_⟩
      · rw [hid]
        exact hq0id.symm
      · rw [hdc]

/-- The players after any makeBid: unchanged or rewritten by the indexed
turn update. -/
theorem makeBid_players_cases (g : Game) (pid : String) (c v : Int) :
    (makeBid g pid c v).game.players = g.players ∨
    (makeBid g pid c v).game.players = g.players.mapIdx
      (fun i p => { p with isCurrentTurn :=
        i == (g.players.findIdx (fun q => q.id == pid) + 1) % g.players.length }) := by
  unfold makeBid
  split
  · exact Or.inl rfl
  · split
    · exact Or.inl rfl
    · split
      · split
        · exact Or.inl rfl
        · exact Or.inr (by rw [makeBidApply_players])
      · exact Or.inr (by rw [makeBidApply_players])

/-- The players after any callBluff: unchanged, or produced by the shared
bluff resolution between two members. -/
theorem callBluff_players_cases (g : Game) (pid : String) (rows : Nat → Nat → Nat) :
    (callBluff g pid rows).game.players = g.players ∨
    (∃ cb ch bd, ch ∈ g.players ∧ bd ∈ g.players ∧
      (callBluff g pid rows).game.players =
        (resolveBluffCore { g with showDice := true } cb ch bd rows).game.players) := by
  unfold callBluff
  cases hb : g.currentBid with
  | none => exact Or.inl rfl
  | some cb =>
    dsimp only
    cases hf : g.players.find? (fun p => p.id == pid) with
    | none => exact Or.inl rfl
    | some player =>
      dsimp only
      cases ht : player.isCurrentTurn with
      | false => exact Or.inl rfl
      | true =>
        rw [if_neg (by simp [ht])]
        cases hbd : g.players.find? (fun p => p.id == cb.playerId) with
        | none => exact Or.inl rfl
        | some bidder =>
          exact Or.inr ⟨cb, player, bidder, List.mem_of_find?_eq_some hf,
            List.mem_of_find?_eq_some hbd, rfl⟩

/-- The players after any computer move: unchanged, rewritten by the
indexed turn update, or produced by the bluff resolution between members. -/
theorem computerMove_players_cases (g : Game) (r : AiRand) :
    (computerMove g r).game.players = g.players ∨
    (∃ pid, (computerMove g r).game.players = g.players.mapIdx
      (fun i p => { p with isCurrentTurn :=
        i == (g.players.findIdx (fun q => q.id == pid) + 1) % g.players.length })) ∨
    (∃ cb ch bd, ch ∈ g.players ∧ bd ∈ g.players ∧
      (computerMove g r).game.players =
        (resolveBluffCore { g with showDice := true } cb ch bd r.rows).game.players) := by
  unfold computerMove
  cases hb : g.currentBid with
  | none =>
    dsimp only
    cases hf : g.players.find? (fun p => p.name == "Computer") with
    | none => exact Or.inl rfl
    | some cp =>
      dsimp only
      cases ht : cp.isCurrentTurn with
      | false => exact Or.inl rfl
      | true =>
        rw [if_neg (by simp [ht])]
        exact Or.inr (Or.inl ⟨cp.id, by rw [makeBidApply_players]⟩)
  | some cb =>
    dsimp only
    cases hf : g.players.find? (fun p => p.name == "Computer") with
    | none => exact Or.inl rfl
    | some cp =>
      dsimp only
      cases ht : cp.isCurrentTurn with
      | false => exact Or.inl rfl
      | true =>
        rw [if_neg (by simp [ht])]
        cases hai : aiCallsBluff cp.dice cb (g.players.foldl
            (fun c p => if p.name ≠ "Computer" then c + p.diceCount else c) 0) with
        | false =>
          rw [if_neg (by simp [hai])]
          exact Or.inr (Or.inl ⟨cp.id, by rw [makeBidApply_players]⟩)
        | true =>
          rw [if_pos (by simp [hai])]
          cases hbd : g.players.find? (fun p => p.id == cb.playerId) with
          | none => exact Or.inl rfl
          | some bidder =>
            exact Or.inr (Or.inr ⟨cb, cp, bidder, List.mem_of_find?_eq_some hf,
              List.mem_of_find?_eq_some hbd, rfl⟩)

/-- Claim C4 counterexample: the reachable session h6 (create, join, start,
bid 6 sixes, then six bluff calls against the same bid) holds a participant
whose diceCount is negative, refuting the claimed diceCount >= 0 invariant.
The repeated bluff calls are possible because neither game-over nor the
turn hand-off stops the final challenger from calling again. -/
theorem C4_cex : Reachable h6 ∧ ∃ p ∈ h6.game.players, p.diceCount < 0 :=
  ⟨reach_h6, by decide⟩

/-- Claim C4 (amended): across every single session transition, every
participant of the new state either corresponds by id to a participant of
the old state whose diceCount it keeps or lowers by exactly one (the loser
of a bluff resolution), or is a freshly joined participant with five dice;
diceCount never increases across a transition.  However diceCount is not
bounded below by zero: repeated bluff calls drive the loser negative. -/
theorem C4_dice_monotone (s t : SessionState) (st : Step s t) :
    DiceMono s.game.players t.game.players := by
  cases st with
  | join s pid pname sock row =>
    dsimp only
    unfold joinGame
    dsimp only
    split
    · exact diceMono_refl _
    · split
      · exact diceMono_refl _
      · exact diceMono_append_new _ _ rfl
  | addC s cid row =>
    dsimp only
    unfold addComputer
    dsimp only
    split
    · exact diceMono_refl _
    · exact diceMono_append_new _ _ rfl
  | start s =>
    dsimp only
    unfold startGame
    dsimp only
    split
    · exact diceMono_refl _
    · exact diceMono_modifyHead _ _ (fun p => ⟨rfl, rfl⟩)
  | bid s pid c v =>
    dsimp only
    rcases makeBid_players_cases s.game pid c v with h | h
    · rw [h]; exact diceMono_refl _
    · rw [h]; exact diceMono_mapIdx _ _ (fun i p => ⟨rfl, rfl⟩)
  | bluff s pid rows =>
    unfold stepBluff
    dsimp only
    rcases callBluff_players_cases s.game pid rows with h | ⟨cb, ch, bd, hch, hbd, h⟩
    · rw [h]; exact diceMono_refl _
    · rw [h]
      exact diceMono_resolveBluffCore { s.game with showDice := true } cb ch bd rows hch hbd
  | fire g c rest =>
    dsimp only
    unfold newRoundUpdate
    dsimp only
    exact diceMono_map _ _ (fun p => ⟨rfl, rfl⟩)
  | leave s sock =>
    dsimp only
    unfold disconnectGame
    dsimp only
    split
    · exact diceMono_refl _
    · exact diceMono_eraseIdx _ _
  | ai s r =>
    unfold stepAi
    dsimp only
    rcases computerMove_players_cases s.game r with h | ⟨pid, h⟩ | ⟨cb, ch, bd, hch, hbd, h⟩
    · rw [h]; exact diceMono_refl _
    · rw [h]; exact diceMono_mapIdx _ _ (fun i p => ⟨rfl, rfl⟩)
    · rw [h]
      exact diceMono_resolveBluffCore { s.game with showDice := true } cb ch bd r.rows hch hbd

/-- Witness for C4: the concrete join transition from the one-player
session satisfies the per-transition dice-count property. -/
theorem C4_dice_monotone_witness :
    DiceMono g0.game.players
      (⟨(joinGame g0.game "p2" "Bob" "s2" zeroRow).game, g0.pending⟩ :
        SessionState).game.players :=
  C4_dice_monotone g0
    ⟨(joinGame g0.game "p2" "Bob" "s2" zeroRow).game, g0.pending⟩
    (Step.join g0 "p2" "Bob" "s2" zeroRow)

end LiarsDice
